import Mathlib

/-!
Verification of the ledger / session-window core of the repository
(src/database.py and src/main.py).

Embedding conventions:
- SQLite REAL columns and Python floats are modelled as exact rationals (`Rat`);
  the spec states its numeric properties "within floating-point tolerance", and
  the exact-arithmetic model is the tolerance-free idealisation of the code.
- SQLite INTEGER identity columns (chat_id, user_id) are modelled as `Int`.
- A table is a list of rows; the UNIQUE constraints of init_db are the
  uniqueness assumptions stated as hypotheses where a theorem needs them.
- Each function of database.py opens its own connection and commits before
  closing, so each is modelled as one state transformer `DB → DB` (writes) or a
  pure read `DB → α` (get_balance and get_portfolio run a single SELECT and
  never write, which the read-only type records).
- Python keyword/argument binding is modelled by the parameter and argument
  counts of each database.py function and each call site in main.py: a call
  whose argument count differs from the parameter count raises TypeError.
-/

/-- A row of the cash_v2 table created by init_db (src/database.py lines 21-28):
columns chat_id, user_id, balance with UNIQUE(chat_id, user_id). -/
structure CashRow where
  chat_id : Int
  user_id : Int
  balance : Rat
deriving Repr, DecidableEq

/-- A row of the portfolios_v2 table (src/database.py lines 10-20): columns
chat_id, user_id, user_name, ticker, shares, avg_price with
UNIQUE(chat_id, user_id, ticker). -/
structure PosRow where
  chat_id : Int
  user_id : Int
  user_name : String
  ticker : String
  shares : Rat
  avg_price : Rat
deriving Repr, DecidableEq

/-- One element of the list get_portfolio returns
(src/database.py line 55: a dict with keys ticker, shares, avg_price). -/
structure Holding where
  ticker : String
  shares : Rat
  avg_price : Rat
deriving Repr, DecidableEq

/-- The persistent state of portfolio.db: the two tables. -/
structure DB where
  cash : List CashRow
  portfolios : List PosRow
deriving Repr, DecidableEq

/-- The WHERE clause "chat_id = ? AND user_id = ?" on cash_v2. -/
def cashKey (chat_id user_id : Int) (r : CashRow) : Bool :=
  r.chat_id == chat_id && r.user_id == user_id

/-- The WHERE clause "chat_id = ? AND user_id = ? AND ticker = ?" on
portfolios_v2. -/
def posKey (chat_id user_id : Int) (ticker : String) (r : PosRow) : Bool :=
  r.chat_id == chat_id && r.user_id == user_id && r.ticker == ticker

/-- The literal 10000000.0 returned by get_balance when no row exists
(src/database.py line 40, "Starting balance of ₹1 Crore"). -/
def STARTING_BALANCE : Rat := 10000000

/-- src/database.py lines 32-40: SELECT balance FROM cash_v2 WHERE chat_id = ?
AND user_id = ?; fetchone; the stored balance if a row matched, else the
starting balance. The function runs no INSERT or UPDATE, which the pure
read-only type records. -/
def get_balance (db : DB) (chat_id user_id : Int) : Rat :=
  match db.cash.find? (cashKey chat_id user_id) with
  | some r => r.balance
  | none => STARTING_BALANCE

/-- src/database.py lines 42-47: INSERT OR REPLACE INTO cash_v2. Under the
UNIQUE(chat_id, user_id) constraint this deletes any conflicting row and
inserts the new one. -/
def update_balance (db : DB) (chat_id user_id : Int) (new_balance : Rat) : DB :=
  { db with cash := db.cash.filter (fun r => !(cashKey chat_id user_id r)) ++
      [⟨chat_id, user_id, new_balance⟩] }

/-- src/database.py lines 49-55: SELECT ticker, shares, avg_price FROM
portfolios_v2 WHERE chat_id = ? AND user_id = ? AND shares > 0, projected to
row dicts. A pure read; no write. -/
def get_portfolio (db : DB) (chat_id user_id : Int) : List Holding :=
  (db.portfolios.filter (fun r =>
      r.chat_id == chat_id && r.user_id == user_id && decide (0 < r.shares))).map
    (fun r => ⟨r.ticker, r.shares, r.avg_price⟩)

/-- src/database.py lines 57-75: SELECT the existing row for
(chat_id, user_id, ticker); if one exists, UPDATE it to the share-weighted
average; else INSERT a fresh row with the given shares and price. The SELECT's
fetchone takes the first matching row; the UPDATE's WHERE clause touches every
matching row (exactly one under the UNIQUE constraint). -/
def buy_stock (db : DB) (chat_id user_id : Int) (user_name ticker : String)
    (shares price : Rat) : DB :=
  match db.portfolios.find? (posKey chat_id user_id ticker) with
  | some row =>
      let new_shares := row.shares + shares
      let new_avg_price := (row.shares * row.avg_price + shares * price) / new_shares
      { db with portfolios := db.portfolios.map (fun r =>
          if posKey chat_id user_id ticker r then
            { r with shares := new_shares, avg_price := new_avg_price }
          else r) }
  | none =>
      { db with portfolios := db.portfolios ++
          [⟨chat_id, user_id, user_name, ticker, shares, price⟩] }

/-! Python call binding. database.py declares
  get_balance(chat_id, user_id), update_balance(chat_id, user_id, new_balance),
  buy_stock(chat_id, user_id, user_name, ticker, shares, price),
  get_portfolio(chat_id, user_id),
none with a default value. main.py calls them as
  database.get_balance(user_id)                                   (line 205)
  database.update_balance(user_id, balance - total_cost)          (line 211)
  database.buy_stock(user_id, user_name, ticker, quantity, current_price)
                                                                  (line 212)
  database.get_balance(user_id)                                   (line 223)
  database.get_portfolio(user_id)                                 (line 224).
A Python call binds only when the argument count equals the parameter count
(no parameter here has a default); otherwise it raises TypeError. -/

/-- Parameter count of database.get_balance (src/database.py line 32). -/
def get_balance_paramCount : Nat := 2

/-- Parameter count of database.update_balance (src/database.py line 42). -/
def update_balance_paramCount : Nat := 3

/-- Parameter count of database.get_portfolio (src/database.py line 49). -/
def get_portfolio_paramCount : Nat := 2

/-- Parameter count of database.buy_stock (src/database.py line 57). -/
def buy_stock_paramCount : Nat := 6

/-- Argument count of the call database.get_balance(user_id) at
src/main.py line 205. -/
def buyCmd_get_balance_argCount : Nat := 1

/-- Argument count of the call database.update_balance(user_id, balance -
total_cost) at src/main.py line 211. -/
def buyCmd_update_balance_argCount : Nat := 2

/-- Argument count of the call database.buy_stock(user_id, user_name, ticker,
quantity, current_price) at src/main.py line 212. -/
def buyCmd_buy_stock_argCount : Nat := 5

/-- Argument count of the call database.get_balance(user_id) at
src/main.py line 223. -/
def portfolioCmd_get_balance_argCount : Nat := 1

/-- Argument count of the call database.get_portfolio(user_id) at
src/main.py line 224. -/
def portfolioCmd_get_portfolio_argCount : Nat := 1

/-- A Python call binds exactly when the argument count matches the parameter
count (none of the database.py functions has a default or variadic
parameter). -/
def pyCallBinds (paramCount argCount : Nat) : Bool :=
  paramCount == argCount

/-- The observable outcome of the buy_command handler (src/main.py lines
173-217), one constructor per reply path:
- noTicker: "Could not identify the stock ticker" (line 195);
- noPrice: "Could not fetch real-time price" (line 201), taken when the price
  lookup yields nothing or a falsy 0;
- insufficientFunds: the "Failed: You need ..." reply (line 208) — unreachable
  in the shipped code, see tradeFailed;
- executed: the "Paper Trade Executed!" reply (line 214) — likewise
  unreachable;
- tradeFailed: the generic "Failed to process paper trade" reply of the
  handler's except branch (line 217). -/
inductive BuyOutcome where
  | noTicker
  | noPrice
  | insufficientFunds
  | executed
  | tradeFailed
deriving Repr, DecidableEq

/-- src/main.py lines 173-217, with the collaborator outputs already resolved:
ticker and quantity extracted from the message (lines 188-192), price_lookup
the yfinance fast_info lastPrice (lines 198-199, none when absent). Control
flow of the body: empty ticker replies noTicker and returns (lines 194-196); a
falsy price (none or 0.0) replies noPrice and returns (lines 200-202); then
total_cost is computed and database.get_balance(user_id) is called (line 205).
That call passes 1 argument to a 2-parameter function, so Python raises
TypeError; the handler's except branch (lines 215-217) catches it and replies
the generic failure. Lines 206-214 (the insufficient-funds check, the two
store writes and the success reply) are therefore unreachable, and no buy
request reads or mutates the database. Note no branch inspects quantity: the
handler has no quantity > 0 validation. -/
def buy_command (db : DB) (user_id : Int) (user_name ticker : String)
    (quantity : Rat) (price_lookup : Option Rat) : BuyOutcome × DB :=
  if ticker = "" then (.noTicker, db)
  else
    match price_lookup with
    | none => (.noPrice, db)
    | some current_price =>
      if current_price = 0 then (.noPrice, db)
      else (.tradeFailed, db)

/-- src/main.py line 42: MAX_HISTORY_LENGTH = 150. -/
def MAX_HISTORY_LENGTH : Nat := 150

/-- src/main.py lines 330-333 (text_handler): append the formatted message to
the scope's history list, then pop the front element once if the length now
exceeds MAX_HISTORY_LENGTH. Each scope (chat_id) owns an independent list in
the chat_histories dict, created empty on first message (lines 326-327); the
evolution of one scope's list is the fold of this step over its messages. -/
def history_append (hist : List String) (msg : String) : List String :=
  let h := hist ++ [msg]
  if MAX_HISTORY_LENGTH < h.length then h.drop 1 else h

/-- Outcome of the per-holding price lookup in portfolio_command
(src/main.py line 239, yf.Ticker(t).fast_info.get("lastPrice", avg)):
- price p: fast_info holds a lastPrice p;
- missing: fast_info lacks the key, so .get returns the default avg;
- raises: the lookup (or anything later in the try block) raises, landing in
  the except branch at line 245. -/
inductive PriceLookup where
  | price (p : Rat)
  | missing
  | raises
deriving Repr, DecidableEq

/-- One holding's line of the portfolio reply: its ticker and whether the line
is the degraded except-branch form (line 246) rather than the priced form
(line 244). -/
structure ReportLine where
  ticker : String
  degraded : Bool
deriving Repr, DecidableEq

/-- One iteration of the valuation loop of portfolio_command (src/main.py
lines 234-246). Per holding, in source order: on a successful lookup curr is
the price (or the default avg when the lastPrice key is missing),
val = shares * curr is added to total_value, and only then is
pct_change = (curr - avg) / avg * 100 computed — so when avg = 0 the division
raises after the value was already added, and the except branch emits the
degraded line. When the lookup itself raises, the except branch emits the
degraded line and total_value is not touched. Every holding emits exactly one
line of the reply. -/
def portfolio_step (acc : Rat × List ReportLine) (item : Holding × PriceLookup) :
    Rat × List ReportLine :=
  match item.2 with
  | .raises => (acc.1, acc.2 ++ [⟨item.1.ticker, true⟩])
  | .missing =>
      (acc.1 + item.1.shares * item.1.avg_price,
       acc.2 ++ [⟨item.1.ticker, item.1.avg_price == 0⟩])
  | .price p =>
      (acc.1 + item.1.shares * p,
       acc.2 ++ [⟨item.1.ticker, item.1.avg_price == 0⟩])

/-- The whole valuation loop of portfolio_command, starting from
total_value = balance (src/main.py line 232) and an empty holdings section. -/
def portfolio_fold (balance : Rat) (items : List (Holding × PriceLookup)) :
    Rat × List ReportLine :=
  items.foldl portfolio_step (balance, [])

/-- The Net Worth figure of the portfolio reply (src/main.py line 248). -/
def portfolio_net_worth (balance : Rat) (items : List (Holding × PriceLookup)) : Rat :=
  (portfolio_fold balance items).1

/-- The per-holding lines of the portfolio reply. -/
def portfolio_report (balance : Rat) (items : List (Holding × PriceLookup)) :
    List ReportLine :=
  (portfolio_fold balance items).2

/-- What one holding actually contributes to total_value in the loop above:
shares * price on a successful lookup, shares * avg_price when the lastPrice
key is missing, and nothing at all when the lookup raises. -/
def line_contribution (h : Holding) (lk : PriceLookup) : Rat :=
  match lk with
  | .price p => h.shares * p
  | .missing => h.shares * h.avg_price
  | .raises => 0

/-- Whether the loop emits the degraded except-branch line for a holding:
always when the lookup raises, and also when avg_price = 0 (the pct_change
division raises). -/
def report_flag (h : Holding) (lk : PriceLookup) : Bool :=
  match lk with
  | .raises => true
  | _ => h.avg_price == 0

/-- Total quantity of a list of (quantity, price) buys. -/
def total_shares (l : List (Rat × Rat)) : Rat :=
  (l.map Prod.fst).sum

/-- Total cost (sum of quantity * price) of a list of (quantity, price) buys. -/
def total_cost_sum (l : List (Rat × Rat)) : Rat :=
  (l.map (fun x => x.1 * x.2)).sum

/-- A sequence of buy_stock calls for one account and ticker, in order. -/
def apply_buys (db : DB) (chat_id user_id : Int) (user_name ticker : String)
    (l : List (Rat × Rat)) : DB :=
  l.foldl (fun d qp => buy_stock d chat_id user_id user_name ticker qp.1 qp.2) db

/-! Helper lemmas. -/

/-- Filtering away everything satisfying p leaves nothing for find? to find. -/
theorem find?_filter_not {α : Type} (p : α → Bool) (l : List α) :
    (l.filter (fun r => !(p r))).find? p = none := by
  rw [List.find?_eq_none]
  intro x hx
  have hmem := (List.mem_filter.mp hx).2
  simp only [Bool.not_eq_true'] at hmem
  simp [hmem]

/-- find? skips a prefix in which it finds nothing. -/
theorem find?_append_right {α : Type} (p : α → Bool) (l₁ l₂ : List α)
    (h : l₁.find? p = none) : (l₁ ++ l₂).find? p = l₂.find? p := by
  induction l₁ with
  | nil => simp
  | cons a t ih =>
    by_cases ha : p a
    · rw [List.find?_cons_of_pos _ ha] at h
      exact absurd h (by simp)
    · have hna : ¬ p a = true := ha
      rw [List.find?_cons_of_neg _ (by simpa using ha)] at h
      rw [List.cons_append, List.find?_cons_of_neg _ (by simpa using ha)]
      exact ih h

/-- If the rows matching p are exactly [a], find? p returns a. -/
theorem find?_of_filter_singleton {α : Type} (p : α → Bool) (l : List α) (a : α)
    (h : l.filter p = [a]) : l.find? p = some a := by
  induction l with
  | nil => simp at h
  | cons x t ih =>
    by_cases hx : p x
    · rw [List.filter_cons_of_pos hx] at h
      rw [List.find?_cons_of_pos _ hx]
      rw [List.cons.injEq] at h
      rw [h.1]
    · rw [List.filter_cons_of_neg (by simpa using hx)] at h
      rw [List.find?_cons_of_neg _ (by simpa using hx)]
      exact ih h

/-- filter commutes with a map that does not change which rows match. -/
theorem filter_map_of_key_preserving {α : Type} (p : α → Bool) (f : α → α)
    (l : List α) (hf : ∀ x, p (f x) = p x) :
    (l.map f).filter p = (l.filter p).map f := by
  induction l with
  | nil => rfl
  | cons x t ih =>
    by_cases hx : p x
    · rw [List.map_cons, List.filter_cons_of_pos (by rw [hf]; exact hx),
        List.filter_cons_of_pos hx, List.map_cons, ih]
    · rw [List.map_cons, List.filter_cons_of_neg (by rw [hf]; simpa using hx),
        List.filter_cons_of_neg (by simpa using hx), ih]

/-- An account with no cash_v2 row has find? come up empty. -/
theorem cash_find?_none (db : DB) (chat_id user_id : Int)
    (h : ∀ r ∈ db.cash, ¬(r.chat_id = chat_id ∧ r.user_id = user_id)) :
    db.cash.find? (cashKey chat_id user_id) = none := by
  rw [List.find?_eq_none]
  intro x hx hpx
  simp only [cashKey, Bool.and_eq_true, beq_iff_eq] at hpx
  exact h x hx ⟨hpx.1, hpx.2⟩

/-- After update_balance writes an amount, get_balance reads it back: the
INSERT OR REPLACE leaves exactly one row for the key. -/
theorem get_balance_update_balance (db : DB) (chat_id user_id : Int) (b : Rat) :
    get_balance (update_balance db chat_id user_id b) chat_id user_id = b := by
  unfold get_balance update_balance
  rw [find?_append_right _ _ _ (find?_filter_not _ _)]
  simp [cashKey]

/-! Claim C1. -/

/-- Claim C1 (code_bug evidence): the claim says every store call made by the
Trade Executor and reporting commands supplies the complete (scope, holder)
account key the schema requires. In the shipped code each of the five call
sites into database.py passes exactly one argument fewer than the function's
parameter count — the chat_id (scope) component is missing — so no call binds
and each raises TypeError. -/
theorem claim1_store_calls_missing_chat_id :
    pyCallBinds get_balance_paramCount buyCmd_get_balance_argCount = false ∧
    pyCallBinds update_balance_paramCount buyCmd_update_balance_argCount = false ∧
    pyCallBinds buy_stock_paramCount buyCmd_buy_stock_argCount = false ∧
    pyCallBinds get_balance_paramCount portfolioCmd_get_balance_argCount = false ∧
    pyCallBinds get_portfolio_paramCount portfolioCmd_get_portfolio_argCount = false ∧
    buyCmd_get_balance_argCount + 1 = get_balance_paramCount ∧
    buyCmd_update_balance_argCount + 1 = update_balance_paramCount ∧
    buyCmd_buy_stock_argCount + 1 = buy_stock_paramCount ∧
    portfolioCmd_get_balance_argCount + 1 = get_balance_paramCount ∧
    portfolioCmd_get_portfolio_argCount + 1 = get_portfolio_paramCount := by
  decide

/-! Claim C3. -/

/-- Claim C3 (code_bug evidence): a buy whose cost exceeds the balance is
supposed to return an InsufficientFunds result. Evaluated at such an input
(100000 TSLA at 900 against the 10000000 default balance), the handler
returns the generic tradeFailed outcome — the TypeError of the ill-formed
get_balance call pre-empts the insufficient-funds branch — though it does
leave the store unchanged. -/
theorem claim3_no_insufficient_funds_result :
    get_balance (DB.mk [] []) 42 7 < 900 * 100000 ∧
    buy_command (DB.mk [] []) 7 "Jay" "TSLA" 100000 (some 900) =
      (BuyOutcome.tradeFailed, DB.mk [] []) ∧
    BuyOutcome.tradeFailed ≠ BuyOutcome.insufficientFunds := by
  refine ⟨?_, ?_, by decide⟩
  · norm_num [get_balance, STARTING_BALANCE]
  · rfl

/-! Claim C4. -/

/-- Claim C4 counterexample: the two writes of a buy are separate committed
sqlite transactions (update_balance commits and closes before buy_stock opens
its own connection, src/main.py lines 211-212). The state after the first
commit — exactly what a storage failure before the second write leaves behind
— is observable with the balance decrement persisted (9998500 rather than the
untouched 10000000) and no position recorded: one write persisted, the other
did not. -/
theorem claim4_counterexample :
    get_balance
      (update_balance (DB.mk [] []) 42 7 (get_balance (DB.mk [] []) 42 7 - 150 * 10))
      42 7 = 9998500 ∧
    (9998500 : Rat) ≠ STARTING_BALANCE ∧
    get_portfolio
      (update_balance (DB.mk [] []) 42 7 (get_balance (DB.mk [] []) 42 7 - 150 * 10))
      42 7 = [] := by
  refine ⟨?_, by norm_num [STARTING_BALANCE], ?_⟩
  · rw [get_balance_update_balance]
    norm_num [get_balance, STARTING_BALANCE]
  · norm_num [get_portfolio, update_balance, get_balance, cashKey]

/-- Claim C4 amended: for every starting state, between the two writes of a
buy (after update_balance committed the decrement by the total cost, before
buy_stock runs) the observable state has the decremented balance and the
portfolios table untouched — a failure there leaves the half-applied pair. -/
theorem claim4_two_separate_writes (db : DB) (chat_id user_id : Int) (cost : Rat) :
    get_balance (update_balance db chat_id user_id (get_balance db chat_id user_id - cost))
      chat_id user_id = get_balance db chat_id user_id - cost ∧
    (update_balance db chat_id user_id (get_balance db chat_id user_id - cost)).portfolios
      = db.portfolios := by
  exact ⟨get_balance_update_balance db chat_id user_id _, rfl⟩

/-! Claim C5. -/

/-- Claim C5 (code_bug evidence): the claim says a non-positive resolved
quantity is rejected before any storage access. The handler never inspects the
quantity: a buy of -5 AAPL at a positive price takes exactly the same path and
produces exactly the same outcome as a buy of 5 — it passes the ticker and
price checks and proceeds to the ledger call, where it dies with the generic
tradeFailed of the missing-argument TypeError, not with any invalid-input
rejection (no such branch exists in the code). -/
theorem claim5_negative_quantity_not_validated :
    buy_command (DB.mk [] []) 7 "Jay" "AAPL" (-5) (some 100) =
      (BuyOutcome.tradeFailed, DB.mk [] []) ∧
    buy_command (DB.mk [] []) 7 "Jay" "AAPL" (-5) (some 100) =
      buy_command (DB.mk [] []) 7 "Jay" "AAPL" 5 (some 100) := by
  exact ⟨rfl, rfl⟩

/-! Claim C6. -/

/-- One handler step keeps the window within capacity. -/
theorem history_append_length_le (hist : List String) (msg : String)
    (h : hist.length ≤ MAX_HISTORY_LENGTH) :
    (history_append hist msg).length ≤ MAX_HISTORY_LENGTH := by
  unfold history_append
  by_cases hc : MAX_HISTORY_LENGTH < (hist ++ [msg]).length
  · rw [if_pos hc]
    rw [List.length_drop, List.length_append]
    simp only [List.length_singleton]
    omega
  · rw [if_neg hc]
    omega

/-- Folding the handler step from any in-capacity window keeps exactly the
last MAX_HISTORY_LENGTH entries of the concatenated stream, in order. -/
theorem foldl_history_append (l : List String) :
    ∀ (hist : List String), hist.length ≤ MAX_HISTORY_LENGTH →
    l.foldl history_append hist =
      (hist ++ l).drop ((hist ++ l).length - MAX_HISTORY_LENGTH) := by
  induction l with
  | nil =>
    intro hist h
    rw [List.foldl_nil, List.append_nil]
    rw [Nat.sub_eq_zero_of_le h, List.drop_zero]
  | cons a t ih =>
    intro hist h
    rw [List.foldl_cons]
    rw [ih (history_append hist a) (history_append_length_le hist a h)]
    by_cases hc : MAX_HISTORY_LENGTH < (hist ++ [a]).length
    · have h150 : hist.length = MAX_HISTORY_LENGTH := by
        rw [List.length_append, List.length_singleton] at hc
        omega
      obtain ⟨b, t0, rfl⟩ : ∃ b t0, hist = b :: t0 := by
        cases hist with
        | nil => rw [List.length_nil] at h150; simp [MAX_HISTORY_LENGTH] at h150
        | cons b t0 => exact ⟨b, t0, rfl⟩
      have happ : history_append (b :: t0) a = t0 ++ [a] := by
        unfold history_append
        rw [if_pos hc]
        rw [List.cons_append, List.drop_succ_cons, List.drop_zero]
      rw [happ]
      have ht0 : t0.length + 1 = MAX_HISTORY_LENGTH := by
        rw [List.length_cons] at h150
        omega
      have e1 : (t0 ++ [a]) ++ t = t0 ++ a :: t := by
        rw [List.append_assoc, List.singleton_append]
      rw [e1]
      have l1 : (t0 ++ a :: t).length = MAX_HISTORY_LENGTH + t.length := by
        rw [List.length_append, List.length_cons]
        omega
      have l2 : ((b :: t0) ++ a :: t).length = MAX_HISTORY_LENGTH + t.length + 1 := by
        rw [List.cons_append, List.length_cons, l1]
      rw [l1, l2]
      have e3 : MAX_HISTORY_LENGTH + t.length + 1 - MAX_HISTORY_LENGTH = t.length + 1 := by
        omega
      have e4 : MAX_HISTORY_LENGTH + t.length - MAX_HISTORY_LENGTH = t.length := by
        omega
      rw [e3, e4, List.cons_append, List.drop_succ_cons]
    · have happ : history_append hist a = hist ++ [a] := by
        unfold history_append
        rw [if_neg hc]
      rw [happ, List.append_assoc, List.singleton_append]

/-- Claim C6: for every scope, folding the text_handler append step over any
stream of messages starting from the empty window leaves a window that never
exceeds the capacity MAX_HISTORY_LENGTH = 150 and holds exactly the last 150
messages of the stream in insertion (FIFO) order; in particular, after
150 + k appends it holds exactly the last 150. Since the bound holds for
every stream, it holds after every intermediate append as well (each prefix
is itself a stream). -/
theorem claim6_window_bound (msgs : List String) :
    (msgs.foldl history_append []).length ≤ MAX_HISTORY_LENGTH ∧
    msgs.foldl history_append [] = msgs.drop (msgs.length - MAX_HISTORY_LENGTH) := by
  have h := foldl_history_append msgs [] (by rw [List.length_nil]; omega)
  rw [List.nil_append] at h
  refine ⟨?_, h⟩
  rw [h, List.length_drop]
  omega

/-! Claim C8. -/

/-- Claim C8: for an account with no cash_v2 row, get_balance returns the
configured starting balance; the function runs only a SELECT, so the state is
untouched (the read is a pure function of the state) and every repeated read
returns the same value until the first explicit update_balance write for that
account, after which the written amount is read back. -/
theorem claim8_default_balance_no_write (db : DB) (chat_id user_id : Int)
    (h : ∀ r ∈ db.cash, ¬(r.chat_id = chat_id ∧ r.user_id = user_id)) :
    get_balance db chat_id user_id = STARTING_BALANCE ∧
    (∀ b : Rat, get_balance (update_balance db chat_id user_id b) chat_id user_id = b) := by
  refine ⟨?_, fun b => get_balance_update_balance db chat_id user_id b⟩
  unfold get_balance
  rw [cash_find?_none db chat_id user_id h]

/-- Claim C8 witness: a store holding only an unrelated account's row, read at
the fresh key (1, 7). -/
theorem claim8_witness :
    get_balance (DB.mk [CashRow.mk 1 2 500] []) 1 7 = STARTING_BALANCE ∧
    (∀ b : Rat, get_balance (update_balance (DB.mk [CashRow.mk 1 2 500] []) 1 7 b) 1 7 = b) :=
  claim8_default_balance_no_write (DB.mk [CashRow.mk 1 2 500] []) 1 7 (by decide)

/-! Claim C9. -/

/-- Claim C9: get_portfolio returns a holding exactly when the portfolios_v2
table has a row for that account with strictly positive shares, projected to
(ticker, shares, avg_price); consequently every returned holding has
shares > 0 and every row with shares ≤ 0 is excluded from every read. -/
theorem claim9_positions_positive_shares (db : DB) (chat_id user_id : Int) :
    (∀ h : Holding, h ∈ get_portfolio db chat_id user_id ↔
      ∃ r ∈ db.portfolios, r.chat_id = chat_id ∧ r.user_id = user_id ∧
        0 < r.shares ∧ h = ⟨r.ticker, r.shares, r.avg_price⟩) ∧
    (∀ h ∈ get_portfolio db chat_id user_id, 0 < h.shares) := by
  constructor
  · intro h
    unfold get_portfolio
    rw [List.mem_map]
    constructor
    · rintro ⟨r, hr, rfl⟩
      rw [List.mem_filter] at hr
      obtain ⟨hmem, hcond⟩ := hr
      simp only [Bool.and_eq_true, beq_iff_eq, decide_eq_true_eq] at hcond
      exact ⟨r, hmem, hcond.1.1, hcond.1.2, hcond.2, rfl⟩
    · rintro ⟨r, hr, hc, hu, hs, rfl⟩
      refine ⟨r, ?_, rfl⟩
      rw [List.mem_filter]
      refine ⟨hr, ?_⟩
      simp only [Bool.and_eq_true, beq_iff_eq, decide_eq_true_eq]
      exact ⟨⟨hc, hu⟩, hs⟩
  · intro h hmem
    unfold get_portfolio at hmem
    rw [List.mem_map] at hmem
    obtain ⟨r, hr, rfl⟩ := hmem
    rw [List.mem_filter] at hr
    obtain ⟨_, hcond⟩ := hr
    simp only [Bool.and_eq_true, beq_iff_eq, decide_eq_true_eq] at hcond
    exact hcond.2

/-! Claim C10. -/

/-- Claim C10: for a (chat_id, user_id) with no row in the cash table,
get_balance returns exactly the literal 10000000 (ten million); being a pure
SELECT it inserts nothing. -/
theorem claim10_starting_ten_million (db : DB) (chat_id user_id : Int)
    (h : ∀ r ∈ db.cash, ¬(r.chat_id = chat_id ∧ r.user_id = user_id)) :
    get_balance db chat_id user_id = 10000000 := by
  unfold get_balance
  rw [cash_find?_none db chat_id user_id h]
  rfl

/-- Claim C10 witness: the empty store read at (42, 7). -/
theorem claim10_witness : get_balance (DB.mk [] []) 42 7 = 10000000 :=
  claim10_starting_ten_million (DB.mk [] []) 42 7 (by simp)

/-! Claim C7. -/

/-- Unrolling the valuation loop from any accumulator: the total grows by each
holding's actual contribution and every holding appends exactly one line. -/
theorem portfolio_foldl_acc (items : List (Holding × PriceLookup)) :
    ∀ (b : Rat) (lines : List ReportLine),
    items.foldl portfolio_step (b, lines) =
      (b + (items.map (fun x => line_contribution x.1 x.2)).sum,
       lines ++ items.map (fun x => ⟨x.1.ticker, report_flag x.1 x.2⟩)) := by
  induction items with
  | nil =>
    intro b lines
    rw [List.foldl_nil, List.map_nil, List.sum_nil, add_zero, List.map_nil,
      List.append_nil]
  | cons it rest ih =>
    intro b lines
    rw [List.foldl_cons]
    obtain ⟨h, lk⟩ := it
    cases lk with
    | raises =>
      rw [show portfolio_step (b, lines) (h, PriceLookup.raises) =
          (b, lines ++ [⟨h.ticker, true⟩]) from rfl, ih]
      simp [line_contribution, report_flag, add_assoc]
    | missing =>
      rw [show portfolio_step (b, lines) (h, PriceLookup.missing) =
          (b + h.shares * h.avg_price, lines ++ [⟨h.ticker, h.avg_price == 0⟩]) from rfl, ih]
      simp [line_contribution, report_flag, add_assoc]
    | price p =>
      rw [show portfolio_step (b, lines) (h, PriceLookup.price p) =
          (b + h.shares * p, lines ++ [⟨h.ticker, h.avg_price == 0⟩]) from rfl, ih]
      simp [line_contribution, report_flag, add_assoc]

/-- Claim C7 counterexample: cash 1000 and a single AAPL position of 10 shares
at avg_price 160 whose price lookup raises. The claim values the degraded
position at its avg_price and demands net worth 1000 + 10 * 160 = 2600; the
loop's except branch adds nothing for it, so the reply's net worth is 1000
(the position is still listed, as a degraded line). -/
theorem claim7_counterexample :
    portfolio_net_worth 1000 [(Holding.mk "AAPL" 10 160, PriceLookup.raises)] = 1000 ∧
    portfolio_report 1000 [(Holding.mk "AAPL" 10 160, PriceLookup.raises)] =
      [ReportLine.mk "AAPL" true] ∧
    portfolio_net_worth 1000 [(Holding.mk "AAPL" 10 160, PriceLookup.raises)] ≠
      1000 + 10 * 160 := by
  refine ⟨rfl, rfl, ?_⟩
  rw [show portfolio_net_worth 1000 [(Holding.mk "AAPL" 10 160, PriceLookup.raises)] =
      1000 from rfl]
  norm_num

/-- Claim C7 amended: every position is still listed in the report (one line
per holding, in order), and net worth equals cash plus the sum of per-line
contributions, where a position whose lookup returns no lastPrice key falls
back to avg_price but a position whose lookup raises contributes zero (it is
omitted from the total, not valued at avg_price). -/
theorem claim7_degraded_contributes_zero (balance : Rat)
    (items : List (Holding × PriceLookup)) :
    portfolio_net_worth balance items =
      balance + (items.map (fun x => line_contribution x.1 x.2)).sum ∧
    (portfolio_report balance items).map ReportLine.ticker =
      items.map (fun x => x.1.ticker) ∧
    (∀ h : Holding, line_contribution h PriceLookup.raises = 0) ∧
    (∀ h : Holding, line_contribution h PriceLookup.missing = h.shares * h.avg_price) := by
  have hfold := portfolio_foldl_acc items balance []
  refine ⟨?_, ?_, fun _ => rfl, fun _ => rfl⟩
  · rw [portfolio_net_worth, portfolio_fold, hfold]
  · rw [portfolio_report, portfolio_fold, hfold]
    simp

/-! Claim C2. -/

/-- total_shares of a cons. -/
theorem total_shares_cons (q p : Rat) (l : List (Rat × Rat)) :
    total_shares ((q, p) :: l) = q + total_shares l := by
  unfold total_shares
  rw [List.map_cons, List.sum_cons]

/-- total_cost_sum of a cons. -/
theorem total_cost_sum_cons (q p : Rat) (l : List (Rat × Rat)) :
    total_cost_sum ((q, p) :: l) = q * p + total_cost_sum l := by
  unfold total_cost_sum
  rw [List.map_cons, List.sum_cons]

/-- The update branch of buy_stock in terms of the unique matching row: if the
rows matching (chat_id, user_id, ticker) are exactly [row], the table after the
buy has exactly one matching row, carrying the summed shares and the
share-weighted average price. -/
theorem buy_stock_filter_update (db : DB) (chat_id user_id : Int)
    (user_name ticker : String) (q p s a : Rat)
    (hdb : db.portfolios.filter (posKey chat_id user_id ticker)
      = [⟨chat_id, user_id, user_name, ticker, s, a⟩]) :
    (buy_stock db chat_id user_id user_name ticker q p).portfolios.filter
        (posKey chat_id user_id ticker)
      = [⟨chat_id, user_id, user_name, ticker, s + q, (s * a + q * p) / (s + q)⟩] := by
  have hfind : db.portfolios.find? (posKey chat_id user_id ticker)
      = some ⟨chat_id, user_id, user_name, ticker, s, a⟩ :=
    find?_of_filter_singleton _ _ _ hdb
  unfold buy_stock
  rw [hfind]
  simp only
  rw [filter_map_of_key_preserving _ _ _ (fun x => by
    by_cases hx : posKey chat_id user_id ticker x
    · rw [if_pos hx]
      exact hx.symm ▸ rfl
    · rw [if_neg hx])]
  rw [hdb, List.map_cons, List.map_nil]
  rw [if_pos (by simp [posKey])]

/-- The insert branch of buy_stock: if no row matches the key, the buy inserts
the one fresh row carrying the given quantity and price. -/
theorem buy_stock_filter_insert (db : DB) (chat_id user_id : Int)
    (user_name ticker : String) (q p : Rat)
    (hdb : db.portfolios.filter (posKey chat_id user_id ticker) = []) :
    (buy_stock db chat_id user_id user_name ticker q p).portfolios.filter
        (posKey chat_id user_id ticker)
      = [⟨chat_id, user_id, user_name, ticker, q, p⟩] := by
  have hfind : db.portfolios.find? (posKey chat_id user_id ticker) = none := by
    rw [List.find?_eq_none]
    intro x hx hpx
    have hmem : x ∈ db.portfolios.filter (posKey chat_id user_id ticker) :=
      List.mem_filter.mpr ⟨hx, hpx⟩
    rw [hdb] at hmem
    exact absurd hmem (List.not_mem_nil x)
  unfold buy_stock
  rw [hfind]
  simp only
  rw [List.filter_append, hdb, List.nil_append]
  rw [List.filter_cons_of_pos (by simp [posKey]), List.filter_nil]

/-- Running a list of positive-quantity buys from a state whose unique
matching row carries s shares at average a accumulates the summed shares and
the quantity-weighted average, expressed from the running cost s * a. -/
theorem apply_buys_loop (chat_id user_id : Int) (user_name ticker : String)
    (l : List (Rat × Rat)) :
    ∀ (db : DB) (s a : Rat), 0 < s → (∀ x ∈ l, 0 < x.1) →
    db.portfolios.filter (posKey chat_id user_id ticker)
      = [⟨chat_id, user_id, user_name, ticker, s, a⟩] →
    (apply_buys db chat_id user_id user_name ticker l).portfolios.filter
        (posKey chat_id user_id ticker)
      = [⟨chat_id, user_id, user_name, ticker, s + total_shares l,
          (s * a + total_cost_sum l) / (s + total_shares l)⟩] := by
  induction l with
  | nil =>
    intro db s a hs _ hdb
    unfold apply_buys
    rw [List.foldl_nil, hdb]
    have h0 : total_shares ([] : List (Rat × Rat)) = 0 := rfl
    have h1 : total_cost_sum ([] : List (Rat × Rat)) = 0 := rfl
    rw [h0, h1, add_zero, add_zero, mul_div_cancel_left₀ a (ne_of_gt hs)]
  | cons qp rest ih =>
    intro db s a hs hpos hdb
    obtain ⟨q, p⟩ := qp
    have hq : 0 < q := hpos (q, p) (List.mem_cons_self _ _)
    have hsq : (0 : Rat) < s + q := add_pos hs hq
    unfold apply_buys
    rw [List.foldl_cons]
    have hstep := buy_stock_filter_update db chat_id user_id user_name ticker q p s a hdb
    have hrest := ih (buy_stock db chat_id user_id user_name ticker q p) (s + q)
      ((s * a + q * p) / (s + q)) hsq
      (fun x hx => hpos x (List.mem_cons_of_mem _ hx)) hstep
    unfold apply_buys at hrest
    simp only at hrest ⊢
    rw [hrest]
    have hcancel : (s + q) * ((s * a + q * p) / (s + q)) = s * a + q * p :=
      mul_div_cancel₀ _ (ne_of_gt hsq)
    rw [hcancel, total_shares_cons, total_cost_sum_cons]
    rw [add_assoc s q (total_shares rest), add_assoc (s * a) (q * p) (total_cost_sum rest)]

/-- Claim C2: starting from a state with no position row for the account and
ticker, a nonempty sequence of buys with positive quantities leaves exactly
one stored row for that key, whose shares equal the sum of the quantities and
whose avg_price equals the quantity-weighted average of the buy prices,
sum(q_i * p_i) / sum(q_i). -/
theorem claim2_weighted_average (db : DB) (chat_id user_id : Int)
    (user_name ticker : String) (q p : Rat) (l : List (Rat × Rat))
    (h0 : db.portfolios.filter (posKey chat_id user_id ticker) = [])
    (hq : 0 < q) (hl : ∀ x ∈ l, 0 < x.1) :
    (apply_buys db chat_id user_id user_name ticker ((q, p) :: l)).portfolios.filter
        (posKey chat_id user_id ticker)
      = [⟨chat_id, user_id, user_name, ticker, total_shares ((q, p) :: l),
          total_cost_sum ((q, p) :: l) / total_shares ((q, p) :: l)⟩] := by
  unfold apply_buys
  rw [List.foldl_cons]
  have hstep := buy_stock_filter_insert db chat_id user_id user_name ticker q p h0
  have hrest := apply_buys_loop chat_id user_id user_name ticker l
    (buy_stock db chat_id user_id user_name ticker q p) q p hq hl hstep
  unfold apply_buys at hrest
  simp only at hrest ⊢
  rw [hrest, total_shares_cons, total_cost_sum_cons]

/-- Claim C2 witness: the spec's own example run — buy 10 at 150 then 5 at 180
on a fresh account — yields the single stored row with 15 shares at average
(10 * 150 + 5 * 180) / 15 = 160. -/
theorem claim2_witness :
    (apply_buys (DB.mk [] []) 1 7 "Jay" "AAPL"
        [((10 : Rat), (150 : Rat)), (5, 180)]).portfolios.filter (posKey 1 7 "AAPL")
      = [PosRow.mk 1 7 "Jay" "AAPL" 15 160] := by
  have h := claim2_weighted_average (DB.mk [] []) 1 7 "Jay" "AAPL" 10 150 [(5, 180)]
    (by rfl) (by norm_num)
    (by
      rintro x hx
      rw [List.mem_singleton] at hx
      rw [hx]
      norm_num)
  rw [h]
  norm_num [total_shares, total_cost_sum]
